import Mathlib

/-!
Verification of the clawdia request router and middleware chain.

This file gives a shallow embedding of the route trie
(src/src/route-mapper/route-mapper.ts: classes RouteMapper and RouteNode,
plus the revision of RouteMapper in src/unnamed/part_012 that uppercases
the HTTP method) and of the middleware dispatch loop of the Clawdia class
(src/unnamed/part_001: runMiddleware and the request callback inside
listen), and proves the behavioural claims about them.

Modelling conventions:
- JavaScript strings are Lean String values; the JS operations
  path.split(sep), s.startsWith(sep), s.slice(1) and s.toUpperCase()
  are replicated on the underlying character lists so that every
  definition evaluates inside the kernel.
- A JS Record / Map with string keys is a function String -> Option _,
  updated pointwise; a plain JS object used as a string map
  (the params object) is an association list, updated with the
  object-spread semantics of replace-in-place-or-append.
- Mutation is replaced by explicit state passing; the in-place mutation
  of trie nodes in addRoute becomes functional rebuilding of the path.
- The middleware chain abstracts each middleware instance by the number
  of times its apply invokes the next continuation; the observable
  modelled is the sequence of middleware invocations (by index) plus
  whether the route handler runs afterwards.
-/

/-- Splits a character list at every occurrence of sep, replicating the
JS String.split semantics: n separators produce n+1 (possibly empty)
tokens. -/
def splitOnChar (sep : Char) : List Char → List (List Char)
  | [] => [[]]
  | c :: rest =>
    match splitOnChar sep rest with
    | [] => [[]]
    | t :: ts => if c = sep then [] :: t :: ts else (c :: t) :: ts

/-- The segment list of a path, as computed by both RouteMapper.add and
RouteMapper.find: path.split("/").filter(Boolean), i.e. split on the
slash and drop empty tokens. -/
def segmentsOf (path : String) : List String :=
  ((splitOnChar '/' path.data).map String.mk).filter (fun s => s ≠ "")

/-- Replicates head.startsWith(":") from RouteNode.addRoute: true iff the
first character of the string is a colon. -/
def startsWithColon (s : String) : Bool :=
  match s.data with
  | c :: _ => c = ':'
  | [] => false

/-- Replicates segment.slice(1) from RouteNode.match: drop the first
character. -/
def sliceFrom1 (s : String) : String := String.mk (s.data.drop 1)

/-- Replicates method.toUpperCase() from the part_012 revision of
RouteMapper, character by character. -/
def toUpperStr (s : String) : String := String.mk (s.data.map Char.toUpper)

/-- The JS object-spread update used in RouteNode.match when binding a
parameter value, written { ...params, [paramName]: head }: if the key is
already present its value is replaced in place, otherwise the binding is
appended. The input list is left untouched (a copy is built). -/
def objSet (m : List (String × String)) (k v : String) : List (String × String) :=
  if m.any (fun p => p.1 = k) then
    m.map (fun p => if p.1 = k then (k, v) else p)
  else m ++ [(k, v)]

/-- One trie node, from class RouteNode in
src/src/route-mapper/route-mapper.ts: a segment label, a map of static
children keyed by literal segment text, at most one parameter child
(the field is an Option, so at most one parameter edge is structurally
possible), and an optional terminal handler. -/
inductive RouteNode (α : Type) : Type where
  | mk (segment : String) (children : String → Option (RouteNode α))
       (paramChild : Option (RouteNode α)) (handler : Option α)

/-- Field accessor for the segment label. -/
def RouteNode.segment : RouteNode α → String
  | .mk s _ _ _ => s

/-- Field accessor for the static-children map. -/
def RouteNode.children : RouteNode α → String → Option (RouteNode α)
  | .mk _ c _ _ => c

/-- Field accessor for the parameter child. -/
def RouteNode.paramChild : RouteNode α → Option (RouteNode α)
  | .mk _ _ p _ => p

/-- Field accessor for the terminal handler. -/
def RouteNode.handler : RouteNode α → Option α
  | .mk _ _ _ h => h

/-- new RouteNode(segment): fresh node with empty children map, no
parameter child and no handler. -/
def RouteNode.make (segment : String) : RouteNode α :=
  .mk segment (fun _ => none) none none

/-- RouteNode.addRoute(parts, handler): on the empty list set the
terminal handler (overwriting any previous one); otherwise route the
head segment either into the parameter child (created on demand, and
reused with its original label when it already exists) when the head
starts with a colon, or into the static child for the head (created on
demand) otherwise, recursing with the remaining segments. -/
def RouteNode.addRoute : RouteNode α → List String → α → RouteNode α
  | .mk seg children paramChild _, [], h => .mk seg children paramChild (some h)
  | .mk seg children paramChild handler, head :: rest, h =>
    if startsWithColon head then
      .mk seg children
        (some ((paramChild.getD (RouteNode.make head)).addRoute rest h)) handler
    else
      .mk seg
        (fun k =>
          if k = head then
            some (((children head).getD (RouteNode.make head)).addRoute rest h)
          else children k)
        paramChild handler

/-- RouteNode.match(parts, params): on the empty list succeed with the
terminal handler and the accumulated params iff a handler is set; on a
head segment, first try the static child for the head with unchanged
params and return its result if it is a success; otherwise, if a
parameter child exists, bind its label stripped of the leading colon to
the head value in a copy of params and return whatever the parameter
child produces; otherwise fail. -/
def RouteNode.matchRoute : RouteNode α → List String → List (String × String) →
    Option (α × List (String × String))
  | n, [], params => (n.handler).map (fun h => (h, params))
  | n, head :: rest, params =>
    match (match n.children head with
           | some c => c.matchRoute rest params
           | none => none) with
    | some r => some r
    | none =>
      match n.paramChild with
      | some pc => pc.matchRoute rest (objSet params (sliceFrom1 pc.segment) head)
      | none => none

/-- class RouteMapper: one root RouteNode per HTTP method, stored in a
string-keyed record. -/
structure RouteMapper (α : Type) where
  methods : String → Option (RouteNode α)

/-- The initial RouteMapper state: methods = {}. -/
def RouteMapper.empty : RouteMapper α := ⟨fun _ => none⟩

/-- RouteMapper.add(method, path, handler) from
src/src/route-mapper/route-mapper.ts: segment the path, lazily create
the root node for the method key (the raw method string, no
normalization in this revision), and addRoute into it. -/
def RouteMapper.add (rm : RouteMapper α) (method path : String) (handler : α) :
    RouteMapper α :=
  let parts := segmentsOf path
  let root := (rm.methods method).getD (RouteNode.make "")
  ⟨fun k => if k = method then some (root.addRoute parts handler) else rm.methods k⟩

/-- RouteMapper.find(method, path) from
src/src/route-mapper/route-mapper.ts: segment the path and match against
the root for the method key, returning null when no root exists
(methods[method]?.match(parts) ?? null). -/
def RouteMapper.find (rm : RouteMapper α) (method path : String) :
    Option (α × List (String × String)) :=
  let parts := segmentsOf path
  match rm.methods method with
  | some root => root.matchRoute parts []
  | none => none

/-- RouteMapper.add from the revision in src/unnamed/part_012: identical
to RouteMapper.add except that the method key is
method.toUpperCase(). -/
def RouteMapperN.add (rm : RouteMapper α) (method path : String) (handler : α) :
    RouteMapper α :=
  let normalizedMethod := toUpperStr method
  let parts := segmentsOf path
  let root := (rm.methods normalizedMethod).getD (RouteNode.make "")
  ⟨fun k =>
    if k = normalizedMethod then some (root.addRoute parts handler)
    else rm.methods k⟩

/-- RouteMapper.find from the revision in src/unnamed/part_012: identical
to RouteMapper.find except that the lookup key is
method.toUpperCase(). -/
def RouteMapperN.find (rm : RouteMapper α) (method path : String) :
    Option (α × List (String × String)) :=
  let parts := segmentsOf path
  match rm.methods (toUpperStr method) with
  | some root => root.matchRoute parts []
  | none => none

/-- A trie built by a sequence of registration calls: fold
RouteNode.addRoute over a list of (segment pattern, handler) pairs,
starting from the fresh root node that RouteMapper.add creates. -/
def buildNode (routes : List (List String × α)) : RouteNode α :=
  routes.foldl (fun n r => n.addRoute r.1 r.2) (RouteNode.make "")

/-- Runs a continuation k times in sequence, threading the chain index
and concatenating the invocation traces; this is the behaviour of one
middleware whose apply calls the shared next closure k times. -/
def iterNext (f : Nat → Nat × List Nat) : Nat → Nat → Nat × List Nat
  | 0, idx => (idx, [])
  | k + 1, idx =>
    let r1 := f idx
    let r2 := iterNext f k r1.1
    (r2.1, r1.2 ++ r2.2)

/-- The next closure of Clawdia.runMiddleware (src/unnamed/part_001): if
idx < instances.length, invoke instances[idx].apply (recorded in the
trace), advance the shared index, and let that middleware call next as
many times as it wishes; otherwise do nothing. Each middleware is
abstracted by its continuation-call count, and fuel bounds the recursion
depth; since every nested call strictly advances the index, a fuel of
chain length + 1 is never exhausted on the entry call. -/
def nextF (calls : List Nat) : Nat → Nat → Nat × List Nat
  | 0, idx => (idx, [])
  | fuel + 1, idx =>
    if h : idx < calls.length then
      let r := iterNext (nextF calls fuel) (calls.get ⟨idx, h⟩) (idx + 1)
      (r.1, idx :: r.2)
    else (idx, [])

/-- Clawdia.runMiddleware: instantiate the chain, set idx = 0 and await
next(); returns the final index and the trace of middleware invocations
(middleware i is the i-th element of the chain). -/
def runMiddleware (calls : List Nat) : Nat × List Nat :=
  nextF calls (calls.length + 1) 0

/-- The request callback inside Clawdia.listen (src/unnamed/part_001,
lines 188-198): await runMiddleware on globalMiddleware concatenated
with the route-scoped middlewares of the resolved handler, then invoke
method.handler.fn unconditionally (no middleware throws in this model,
so the catch branch is never taken). Returns the middleware invocation
trace and whether the handler ran. -/
def dispatch (globalMW routeMW : List Nat) : List Nat × Bool :=
  ((runMiddleware (globalMW ++ routeMW)).2, true)

/-! ## General lemmas about the trie -/

/-- addRoute never changes the segment label of the node it is called
on; in particular an existing parameter child keeps its original label
when a later registration routes through it. -/
theorem addRoute_segment (n : RouteNode α) (ps : List String) (b : α) :
    (n.addRoute ps b).segment = n.segment := by
  cases n with
  | mk seg ch pc hd =>
    cases ps with
    | nil => rfl
    | cons head rest =>
      cases hstart : startsWithColon head <;>
        simp [RouteNode.addRoute, hstart, RouteNode.segment]

/-- There is a registered terminal binding at depth d below this node:
depth 0 means the node itself has a handler, depth d+1 means some static
or parameter child has one at depth d. -/
def terminalAt : RouteNode α → Nat → Prop
  | n, 0 => n.handler ≠ none
  | n, d + 1 =>
    (∃ s c, n.children s = some c ∧ terminalAt c d)
    ∨ (∃ pc, n.paramChild = some pc ∧ terminalAt pc d)

/-- A successful match on a segment list witnesses a terminal binding at
depth exactly the length of that list. -/
theorem matchRoute_terminalAt :
    ∀ (qs : List String) (n : RouteNode α) (params : List (String × String))
      (r : α × List (String × String)),
      n.matchRoute qs params = some r → terminalAt n qs.length := by
  intro qs
  induction qs with
  | nil =>
    intro n params r hm
    simp only [RouteNode.matchRoute] at hm
    cases hh : n.handler with
    | none => rw [hh] at hm; exact Option.noConfusion hm
    | some hd => simp [terminalAt, hh]
  | cons head rest ih =>
    intro n params r hm
    simp only [RouteNode.matchRoute] at hm
    simp only [List.length_cons, terminalAt]
    cases hch : n.children head with
    | some c =>
      simp only [hch] at hm
      cases hcm : c.matchRoute rest params with
      | some r2 => exact Or.inl ⟨head, c, hch, ih c params r2 hcm⟩
      | none =>
        simp only [hcm] at hm
        cases hpc : n.paramChild with
        | some pc =>
          simp only [hpc] at hm
          exact Or.inr ⟨pc, rfl, ih pc _ r hm⟩
        | none => simp only [hpc] at hm; exact Option.noConfusion hm
    | none =>
      simp only [hch] at hm
      cases hpc : n.paramChild with
      | some pc =>
        simp only [hpc] at hm
        exact Or.inr ⟨pc, rfl, ih pc _ r hm⟩
      | none => simp only [hpc] at hm; exact Option.noConfusion hm

/-- A freshly created node carries no terminal binding at any depth. -/
theorem make_not_terminalAt (s : String) :
    ∀ (d : Nat), ¬ terminalAt (RouteNode.make s : RouteNode α) d := by
  intro d
  cases d with
  | zero => simp [terminalAt, RouteNode.make, RouteNode.handler]
  | succ d =>
    simp [terminalAt, RouteNode.make, RouteNode.children, RouteNode.paramChild]

/-- Registering one pattern creates terminal bindings only at the depth
of that pattern: any terminal depth of the grown trie is either a
terminal depth of the old trie or the length of the new pattern. -/
theorem addRoute_terminalAt :
    ∀ (ps : List String) (n : RouteNode α) (b : α) (d : Nat),
      terminalAt (n.addRoute ps b) d → terminalAt n d ∨ d = ps.length := by
  intro ps
  induction ps with
  | nil =>
    intro n b d ht
    cases n with
    | mk seg ch pc hd =>
      cases d with
      | zero => exact Or.inr rfl
      | succ d =>
        left
        simpa [RouteNode.addRoute, terminalAt, RouteNode.children,
          RouteNode.paramChild] using ht
  | cons head rest ih =>
    intro n b d ht
    cases n with
    | mk seg ch pc hd =>
      cases hstart : startsWithColon head with
      | true =>
        simp only [RouteNode.addRoute, hstart, if_true] at ht
        cases d with
        | zero =>
          left
          simpa [terminalAt, RouteNode.handler] using ht
        | succ d =>
          simp only [terminalAt, RouteNode.children, RouteNode.paramChild,
            List.length_cons] at ht ⊢
          rcases ht with ⟨s, c, hsc, hc⟩ | ⟨pc2, hpc2, hp⟩
          · exact Or.inl (Or.inl ⟨s, c, hsc, hc⟩)
          · have hpc2e := Option.some.inj hpc2
            rw [← hpc2e] at hp
            rcases ih _ b d hp with hterm | hlen
            · cases hpcv : pc with
              | some p0 =>
                rw [hpcv] at hterm
                exact Or.inl (Or.inr ⟨p0, rfl, by simpa using hterm⟩)
              | none =>
                rw [hpcv] at hterm
                exact absurd (by simpa using hterm) (make_not_terminalAt head d)
            · right; omega
      | false =>
        simp only [RouteNode.addRoute, hstart, Bool.false_eq_true, if_false] at ht
        cases d with
        | zero =>
          left
          simpa [terminalAt, RouteNode.handler] using ht
        | succ d =>
          simp only [terminalAt, RouteNode.children, RouteNode.paramChild,
            List.length_cons] at ht ⊢
          rcases ht with ⟨s, c, hsc, hc⟩ | ⟨pc2, hpc2, hp⟩
          · by_cases hs : s = head
            · subst hs
              rw [if_pos rfl] at hsc
              have hce := Option.some.inj hsc
              rw [← hce] at hc
              rcases ih _ b d hc with hterm | hlen
              · cases hch : ch s with
                | some c0 =>
                  rw [hch] at hterm
                  exact Or.inl (Or.inl ⟨s, c0, hch, by simpa using hterm⟩)
                | none =>
                  rw [hch] at hterm
                  exact absurd (by simpa using hterm) (make_not_terminalAt s d)
              · right; omega
            · rw [if_neg hs] at hsc
              exact Or.inl (Or.inl ⟨s, c, hsc, hc⟩)
          · exact Or.inl (Or.inr ⟨pc2, hpc2, hp⟩)

/-- Folding a registration list over a starting node creates terminal
bindings only at depths of registered patterns. -/
theorem foldl_addRoute_terminalAt :
    ∀ (routes : List (List String × α)) (n : RouteNode α) (d : Nat),
      terminalAt (routes.foldl (fun n r => n.addRoute r.1 r.2) n) d →
      terminalAt n d ∨ ∃ pr ∈ routes, pr.1.length = d := by
  intro routes
  induction routes with
  | nil => intro n d ht; exact Or.inl ht
  | cons r rs ih =>
    intro n d ht
    rcases ih (n.addRoute r.1 r.2) d (by simpa using ht) with h1 | ⟨pr, hmem, hlen⟩
    · rcases addRoute_terminalAt r.1 n r.2 d h1 with h2 | h2
      · exact Or.inl h2
      · exact Or.inr ⟨r, List.mem_cons_self r rs, h2.symm⟩
    · exact Or.inr ⟨pr, List.mem_cons_of_mem r hmem, hlen⟩

/-- Registering the same pattern twice collapses to registering it once
with the second binding: the walk of the second addRoute retraces the
first and overwrites only the terminal handler. -/
theorem addRoute_addRoute :
    ∀ (ps : List String) (n : RouteNode α) (b1 b2 : α),
      (n.addRoute ps b1).addRoute ps b2 = n.addRoute ps b2 := by
  intro ps
  induction ps with
  | nil => intro n b1 b2; cases n; rfl
  | cons head rest ih =>
    intro n b1 b2
    cases n with
    | mk seg ch pc hd =>
      cases hstart : startsWithColon head with
      | true => simp [RouteNode.addRoute, hstart, ih]
      | false =>
        simp only [RouteNode.addRoute, hstart, Bool.false_eq_true, if_false,
          RouteNode.mk.injEq, true_and, and_true]
        funext k
        by_cases hk : k = head
        · subst hk; simp [ih]
        · simp [hk]

/-- The RouteMapper-level form of last-write-wins: adding the same
method and path twice equals adding it once with the second handler. -/
theorem add_add (rm : RouteMapper α) (m p : String) (b1 b2 : α) :
    (rm.add m p b1).add m p b2 = rm.add m p b2 := by
  apply congrArg RouteMapper.mk
  funext k
  by_cases hk : k = m
  · subst hk; simp [RouteMapper.add, addRoute_addRoute]
  · simp [RouteMapper.add, hk]

/-! ## General lemmas about the middleware chain -/

/-- Iterating a continuation that only ever advances the index and
records the consecutive run of indices it passes yields again an
advancing run of consecutive indices. -/
theorem iterNext_spec (f : Nat → Nat × List Nat)
    (hf : ∀ j, j ≤ (f j).1 ∧ (f j).2 = List.range' j ((f j).1 - j)) :
    ∀ (k idx : Nat), idx ≤ (iterNext f k idx).1 ∧
      (iterNext f k idx).2 = List.range' idx ((iterNext f k idx).1 - idx) := by
  intro k
  induction k with
  | zero => intro idx; simp [iterNext]
  | succ k ih =>
    intro idx
    obtain ⟨h1, h2⟩ := hf idx
    obtain ⟨h3, h4⟩ := ih (f idx).1
    refine ⟨?_, ?_⟩
    · exact le_trans h1 h3
    · show (f idx).2 ++ (iterNext f k (f idx).1).2
        = List.range' idx ((iterNext f k (f idx).1).1 - idx)
      rw [h2, h4]
      have h5 := List.range'_append idx ((f idx).1 - idx)
        ((iterNext f k (f idx).1).1 - (f idx).1) 1
      rw [Nat.one_mul, show idx + ((f idx).1 - idx) = (f idx).1 by omega] at h5
      rw [h5]
      congr 1
      omega

/-- The chain driver only advances the shared index, and the middleware
instances it invokes are exactly the consecutive indices from the start
index to the final one, each exactly once and in order. -/
theorem nextF_spec (calls : List Nat) :
    ∀ (fuel idx : Nat), idx ≤ (nextF calls fuel idx).1 ∧
      (nextF calls fuel idx).2
        = List.range' idx ((nextF calls fuel idx).1 - idx) := by
  intro fuel
  induction fuel with
  | zero => intro idx; simp [nextF]
  | succ fuel ih =>
    intro idx
    by_cases hlt : idx < calls.length
    · obtain ⟨h1, h2⟩ :=
        iterNext_spec (nextF calls fuel) ih (calls.get ⟨idx, hlt⟩) (idx + 1)
      have e1 : (nextF calls (fuel + 1) idx).1
          = (iterNext (nextF calls fuel) (calls.get ⟨idx, hlt⟩) (idx + 1)).1 := by
        simp [nextF, hlt]
      have e2 : (nextF calls (fuel + 1) idx).2
          = idx :: (iterNext (nextF calls fuel) (calls.get ⟨idx, hlt⟩) (idx + 1)).2 := by
        simp [nextF, hlt]
      refine ⟨?_, ?_⟩
      · rw [e1]; omega
      · rw [e2, e1, h2]
        rw [show (iterNext (nextF calls fuel) (calls.get ⟨idx, hlt⟩) (idx + 1)).1 - idx
            = ((iterNext (nextF calls fuel) (calls.get ⟨idx, hlt⟩) (idx + 1)).1
                - (idx + 1)) + 1 by omega]
        simp [List.range']
    · simp [nextF, hlt]

/-! ## The claims -/

/-- C1 counterexample. The claim asserts that when global middleware B
does not invoke its continuation, neither the route middleware C nor the
resolved handler executes. With global chain [A, B] where A calls its
continuation once and B never does, and route chain [C]: C (index 2) is
indeed never invoked, but the handler still runs, because the request
callback of listen invokes method.handler.fn unconditionally after
runMiddleware resolves. -/
theorem C1_handler_runs_after_shortcircuit :
    (dispatch [1, 0] [1]).2 = true ∧ (2 ∈ (dispatch [1, 0] [1]).1 → False) := by
  decide

/-- C1 (amended): with global middleware [A, B] and route middleware
[C], each calling its continuation once, the chain executes A, then B,
then C, in that order, and the handler runs after the chain; if B does
not invoke its continuation, C never executes, but the resolved handler
still executes, since listen invokes it unconditionally after the
middleware chain completes; in general the middleware invoked are an
in-order prefix of global middleware followed by route middleware. -/
theorem C1_amended_middleware_order :
    dispatch [1, 1] [1] = ([0, 1, 2], true)
    ∧ dispatch [1, 0] [1] = ([0, 1], true)
    ∧ ∀ (g r : List Nat), ∃ k, (dispatch g r).1 = List.range' 0 k := by
  refine ⟨by decide, by decide, ?_⟩
  intro g r
  obtain ⟨h1, h2⟩ := nextF_spec (g ++ r) ((g ++ r).length + 1) 0
  exact ⟨_, by simpa [dispatch, runMiddleware] using h2⟩

/-- C2: at every node, a static child matching the head segment is tried
first, and if its recursive match succeeds that result is returned with
unchanged accumulated parameters, regardless of any parameter child; in
particular with GET /users/:id and GET /users/active registered,
resolving GET /users/active returns the active binding with an empty
parameter map. -/
theorem C2_static_priority :
    (∀ (α : Type) (n : RouteNode α) (head : String) (rest : List String)
        (params : List (String × String)) (c : RouteNode α)
        (res : α × List (String × String)),
        n.children head = some c → c.matchRoute rest params = some res →
        n.matchRoute (head :: rest) params = some res)
    ∧ ((RouteMapper.empty.add "GET" "/users/:id" (1 : Nat)).add
        "GET" "/users/active" 2).find "GET" "/users/active" = some (2, []) := by
  constructor
  · intro α n head rest params c res hc hres
    simp only [RouteNode.matchRoute, hc, hres]
  · decide

/-- C2 witness: instantiating the general statement at a concrete
two-node trie. -/
theorem C2_static_priority_witness :
    ((RouteNode.make "" : RouteNode Nat).addRoute ["a"] 7).matchRoute ["a"] []
      = some (7, []) :=
  C2_static_priority.1 Nat ((RouteNode.make "").addRoute ["a"] 7) "a" [] []
    (RouteNode.mk "a" (fun _ => none) none (some 7)) (7, []) rfl rfl

/-- C3: when the static branch for the head segment yields no success
and a parameter child exists, the match binds the parameter child label
stripped of its colon to the head value in a copy of the accumulated
parameters and returns whatever the parameter child produces; in
particular GET /users/:id resolves GET /users/42 to the :id binding with
parameter map id = 42. -/
theorem C3_param_fallback :
    (∀ (α : Type) (n : RouteNode α) (head : String) (rest : List String)
        (params : List (String × String)) (pc : RouteNode α),
        n.paramChild = some pc →
        (∀ c, n.children head = some c → c.matchRoute rest params = none) →
        n.matchRoute (head :: rest) params
          = pc.matchRoute rest (objSet params (sliceFrom1 pc.segment) head))
    ∧ (RouteMapper.empty.add "GET" "/users/:id" (1 : Nat)).find "GET" "/users/42"
        = some (1, [("id", "42")]) := by
  constructor
  · intro α n head rest params pc hpc hstat
    simp only [RouteNode.matchRoute]
    cases hch : n.children head with
    | none => simp only [hpc]
    | some c => simp only [hstat c hch, hpc]
  · decide

/-- C3 witness: instantiating the general statement at a concrete trie
holding a single parameter route. -/
theorem C3_param_fallback_witness :
    ((RouteNode.make "" : RouteNode Nat).addRoute [":id"] 3).matchRoute ["42"] []
      = (RouteNode.mk ":id" (fun _ => none) none (some 3)).matchRoute []
          (objSet [] (sliceFrom1 ":id") "42") :=
  C3_param_fallback.1 Nat ((RouteNode.make "").addRoute [":id"] 3) "42" [] []
    (RouteNode.mk ":id" (fun _ => none) none (some 3)) rfl
    (fun c hc => by
      rw [show ((RouteNode.make "" : RouteNode Nat).addRoute [":id"] 3).children "42"
          = none from rfl] at hc
      exact Option.noConfusion hc)

/-- C4: matching is exact-length. In a trie built by any sequence of
registration calls, a successful match on a request segment list
witnesses a registered pattern with exactly as many segments; in
particular registering GET /a/b matches neither GET /a/b/c nor
GET /a. -/
theorem C4_exact_length :
    (∀ (α : Type) (routes : List (List String × α)) (qs : List String)
        (params : List (String × String)) (r : α × List (String × String)),
        (buildNode routes).matchRoute qs params = some r →
        ∃ pr ∈ routes, pr.1.length = qs.length)
    ∧ (RouteMapper.empty.add "GET" "/a/b" (1 : Nat)).find "GET" "/a/b/c" = none
    ∧ (RouteMapper.empty.add "GET" "/a/b" (1 : Nat)).find "GET" "/a" = none := by
  refine ⟨?_, by decide, by decide⟩
  intro α routes qs params r hm
  have ht := matchRoute_terminalAt qs (buildNode routes) params r hm
  rcases foldl_addRoute_terminalAt routes (RouteNode.make "") qs.length ht with h1 | h2
  · exact absurd h1 (make_not_terminalAt "" qs.length)
  · exact h2

/-- C4 witness: instantiating the general statement at a one-route
registration list. -/
theorem C4_exact_length_witness :
    ∃ pr ∈ [((["a", "b"] : List String), (1 : Nat))],
      pr.1.length = (["a", "b"] : List String).length :=
  C4_exact_length.1 Nat [((["a", "b"] : List String), 1)] ["a", "b"] [] (1, [])
    (by decide)

/-- C5: the part_012 revision of RouteMapper uppercases the method in
add and in find, so a route added under one casing of a method is found
under any other casing with the same uppercasing; in particular a route
added with method get is returned by find with method GET. -/
theorem C5_method_normalization :
    (∀ (α : Type) (rm : RouteMapper α) (m1 m2 p q : String) (hnd : α),
        toUpperStr m1 = toUpperStr m2 →
        RouteMapperN.find (RouteMapperN.add rm m1 p hnd) m2 q
          = RouteMapperN.find (RouteMapperN.add rm m1 p hnd) m1 q)
    ∧ RouteMapperN.find (RouteMapperN.add RouteMapper.empty "get" "/x" (5 : Nat))
        "GET" "/x" = some (5, []) := by
  constructor
  · intro α rm m1 m2 p q hnd hupper
    simp only [RouteMapperN.find]
    rw [← hupper]
  · decide

/-- C5 witness: instantiating the general statement at casings get and
GET. -/
theorem C5_method_normalization_witness :
    RouteMapperN.find (RouteMapperN.add RouteMapper.empty "get" "/x" (5 : Nat))
        "GET" "/x"
      = RouteMapperN.find (RouteMapperN.add RouteMapper.empty "get" "/x" (5 : Nat))
        "get" "/x" :=
  C5_method_normalization.1 Nat RouteMapper.empty "get" "GET" "/x" "/x" 5 (by decide)

/-- C6 counterexample. The claim asserts that add with an empty method
string raises a configuration error and does not register the route. In
the source, RouteMapper.add performs no validation at all: the route is
silently registered under the empty-string method key and is even
resolvable by find with the empty method. -/
theorem C6_empty_method_counterexample :
    (RouteMapper.empty.add "" "/x" (5 : Nat)).find "" "/x" = some (5, []) := by
  decide

/-- C6 (amended): RouteMapper.add never fails and performs no input
validation; a call with an empty method string silently registers the
route under the empty-string method key, and no configuration error is
raised. -/
theorem C6_amended_no_validation :
    (∀ (α : Type) (rm : RouteMapper α) (p : String) (hnd : α),
        (rm.add "" p hnd).methods ""
          = some (((rm.methods "").getD (RouteNode.make "")).addRoute
              (segmentsOf p) hnd))
    ∧ (RouteMapper.empty.add "" "/x" (5 : Nat)).find "" "/x" = some (5, []) := by
  refine ⟨?_, by decide⟩
  intro α rm p hnd
  simp [RouteMapper.add]

/-- C7: a RouteNode holds at most one parameter child (an Option field),
and addRoute reuses an existing parameter child without updating its
label, so a second registration with a different parameter name at the
same position is aliased to the first name; in particular after
GET /a/:id/x and GET /a/:userId/y, resolving GET /a/7/y returns the
second binding with the value bound under id, not userId. -/
theorem C7_param_child_reuse :
    (∀ (α : Type) (n : RouteNode α) (head : String) (rest : List String)
        (b : α) (pc : RouteNode α),
        startsWithColon head = true → n.paramChild = some pc →
        (n.addRoute (head :: rest) b).paramChild = some (pc.addRoute rest b)
          ∧ (pc.addRoute rest b).segment = pc.segment)
    ∧ ((RouteMapper.empty.add "GET" "/a/:id/x" (1 : Nat)).add
        "GET" "/a/:userId/y" 2).find "GET" "/a/7/y" = some (2, [("id", "7")]) := by
  constructor
  · intro α n head rest b pc hcolon hpc
    refine ⟨?_, addRoute_segment pc rest b⟩
    cases n with
    | mk seg ch pc0 hd =>
      simp only [RouteNode.paramChild] at hpc
      simp [RouteNode.addRoute, hcolon, hpc, RouteNode.paramChild]
  · decide

/-- C7 witness: instantiating the general statement at a trie with an
existing parameter child labelled :id, extended through :userId. -/
theorem C7_param_child_reuse_witness :
    (((RouteNode.make "" : RouteNode Nat).addRoute [":id"] 1).addRoute
        [":userId"] 2).paramChild
      = some ((RouteNode.mk ":id" (fun _ => none) none (some 1)).addRoute [] 2)
    ∧ ((RouteNode.mk ":id" (fun _ => none) none (some (1 : Nat))).addRoute [] 2).segment
      = (RouteNode.mk ":id" (fun _ => none) none (some (1 : Nat))).segment :=
  C7_param_child_reuse.1 Nat ((RouteNode.make "").addRoute [":id"] 1) ":userId" [] 2
    (RouteNode.mk ":id" (fun _ => none) none (some 1)) rfl rfl

/-- C8: re-registration is last-write-wins: adding the same method and
path twice is the same mapper state as adding it once with the second
binding (no conflict error is raised, the terminal binding is silently
overwritten), and a subsequent find returns the second binding. -/
theorem C8_last_write_wins :
    (∀ (α : Type) (rm : RouteMapper α) (m p : String) (b1 b2 : α),
        (rm.add m p b1).add m p b2 = rm.add m p b2)
    ∧ ((RouteMapper.empty.add "GET" "/x" (1 : Nat)).add "GET" "/x" 2).find
        "GET" "/x" = some (2, []) :=
  ⟨fun α rm m p b1 b2 => add_add rm m p b1 b2, by decide⟩

/-- C9: find is total and returns none rather than throwing: when no
root is registered for the method it returns none for every path, and
when no terminal binding matches it returns none; in particular a route
registered under GET is invisible to POST, and an unknown path under a
known method is not found. -/
theorem C9_not_found_total :
    (∀ (α : Type) (rm : RouteMapper α) (m p : String),
        rm.methods m = none → rm.find m p = none)
    ∧ (RouteMapper.empty.add "GET" "/x" (1 : Nat)).find "POST" "/x" = none
    ∧ (RouteMapper.empty.add "GET" "/x" (1 : Nat)).find "GET" "/y" = none := by
  refine ⟨?_, by decide, by decide⟩
  intro α rm m p hnone
  simp [RouteMapper.find, hnone]

/-- C9 witness: instantiating the general statement at the empty mapper
and method POST. -/
theorem C9_not_found_total_witness :
    (RouteMapper.empty : RouteMapper Nat).find "POST" "/x" = none :=
  C9_not_found_total.1 Nat RouteMapper.empty "POST" "/x" rfl

/-- C10: within one run of the middleware chain each middleware instance
is invoked at most once, even when some middleware calls its
continuation several times: the shared index only advances, so in the
chain [A, B, C] with A calling its continuation twice, B once and C
never, each of A, B, C still runs exactly once. -/
theorem C10_middleware_at_most_once :
    (∀ (calls : List Nat) (i : Nat), ((runMiddleware calls).2).count i ≤ 1)
    ∧ runMiddleware [2, 1, 0] = (3, [0, 1, 2]) := by
  constructor
  · intro calls i
    obtain ⟨h1, h2⟩ := nextF_spec calls (calls.length + 1) 0
    show ((nextF calls (calls.length + 1) 0).2).count i ≤ 1
    rw [h2]
    exact List.nodup_iff_count_le_one.mp (List.nodup_range' 0 _) i
  · decide
